import Mathlib

/-!
Verification development for the AI-assistant orchestration core of the
kliniq API: the TOOL_CALL extractor and dispatcher
(src/common/llm/tool_executor.py), the speech/translation client wrappers
(src/common/llm/transcription_service.py, translation_service.py), and the
multilingual transcript cache (transcribe_message in
src/modules/messages/messages_service.py).

The Python code is shallowly embedded: dictionaries become association
lists, external HTTP calls become explicit call-outcome parameters, and the
sequence of client invocations is returned as an explicit log so that
call-count properties can be stated.  Python exceptions that escape a
function are modelled with Except.
-/

/-- JSON values, as produced by json.loads.  Numbers are modelled as
integers (no claim depends on fractional numbers). -/
inductive Json where
  | null
  | bool (b : Bool)
  | num (n : Int)
  | str (s : String)
  | arr (elems : List Json)
  | obj (fields : List (String × Json))

/-- A parsed JSON object document: its field list.  json.loads applied to a
brace-delimited document either fails or yields a dict, i.e. such a list
with distinct keys. -/
abbrev JsonObj := List (String × Json)

/-- Python truthiness of a JSON-derived value (None, False, 0, empty
string/list/dict are falsy). -/
def pyTruthy : Json → Bool
  | .null => false
  | .bool b => b
  | .num n => n ≠ 0
  | .str s => s ≠ ""
  | .arr l => ¬ l.isEmpty
  | .obj l => ¬ l.isEmpty

/-- Truthiness of d.get(k): None (absent) is falsy. -/
def pyTruthyOpt : Option Json → Bool
  | none => false
  | some j => pyTruthy j

/-- dict.get(k) on a JSON object (keys are unique in a dict produced by
json.loads, so first match suffices). -/
def jget (fields : JsonObj) (k : String) : Option Json :=
  match fields with
  | [] => none
  | (k1, v) :: rest => if k1 = k then some v else jget rest k

/-- Python == between d.get("tool") and a string literal: false for None
and for non-string values. -/
def jeqStr (o : Option Json) (s : String) : Bool :=
  match o with
  | some (.str t) => t = s
  | _ => false

/-- dict.get(k) on a string-valued map (the transcripts JSONB column). -/
def dlookup (d : List (String × String)) (k : String) : Option String :=
  match d with
  | [] => none
  | (k1, v) :: rest => if k1 = k then some v else dlookup rest k

/-- dict assignment d[k] = v on a string-valued map. -/
def dinsert (d : List (String × String)) (k v : String) : List (String × String) :=
  match d with
  | [] => [(k, v)]
  | (k1, v1) :: rest => if k1 = k then (k1, v) :: rest else (k1, v1) :: dinsert rest k v

/-- Rough model of Python str() as used in the f-string
f"Unknown tool: {tool_name}" (only the string case matters to any claim). -/
def jsonToStr : Option Json → String
  | none => "None"
  | some (.str s) => s
  | some .null => "None"
  | some (.bool b) => if b then "True" else "False"
  | some (.num n) => toString n
  | some (.arr _) => "[...]"
  | some (.obj _) => "dict"

/-- The PreferredLanguage enum of src/models/models.py. -/
inductive PreferredLanguage where
  | english
  | hausa
  | igbo
  | yoruba
deriving DecidableEq

/-- The .value of each enum member. -/
def PreferredLanguage.value : PreferredLanguage → String
  | .english => "english"
  | .hausa => "hausa"
  | .igbo => "igbo"
  | .yoruba => "yoruba"

/-- The enum constructor PreferredLanguage(s): ValueError (none) for any
string that is not one of the four values. -/
def PreferredLanguage.ofString (s : String) : Option PreferredLanguage :=
  if s = "english" then some .english
  else if s = "hausa" then some .hausa
  else if s = "igbo" then some .igbo
  else if s = "yoruba" then some .yoruba
  else none

/-!
## Action-call extractor (src/common/llm/tool_executor.py, parse_tool_calls)
TOOL_CALL_PATTERN = re.compile(r'<TOOL_CALL>\s*(\x7b.*?\x7d)\s*</TOOL_CALL>', re.DOTALL)
re.findall / re.sub scan left to right for non-overlapping matches.  At each
position, a match requires the literal <TOOL_CALL>, then greedy whitespace,
then a brace-delimited capture ending at the first closing brace that is
followed by whitespace and the literal </TOOL_CALL> (the non-greedy .*?),
then that closing literal.  The scanner below mirrors exactly this.
-/
/-- Python regex class \s (the ASCII whitespace characters). -/
def isPySpace (c : Char) : Bool :=
  c = ' ' ∨ c = '\t' ∨ c = '\n' ∨ c = '\x0d' ∨ c = '\x0b' ∨ c = '\x0c'

/-- The opening delimiter literal. -/
def openTag : List Char := "<TOOL_CALL>".data

/-- The closing delimiter literal. -/
def closeTag : List Char := "</TOOL_CALL>".data

/-- Strip a literal from the front of a character list, or fail. -/
def dropPfx : List Char → List Char → Option (List Char)
  | [], l => some l
  | _ :: _, [] => none
  | p :: ps, c :: cs => if p = c then dropPfx ps cs else none

/-- Scan for the first closing brace whose whitespace-skipped suffix starts
with the closing literal (the resolution of the non-greedy .*? followed by
the pattern tail).  Returns the capture (accumulated characters plus that
closing brace) and the input remaining after the closing literal. -/
def findClose (acc : List Char) : List Char → Option (List Char × List Char)
  | [] => none
  | c :: cs =>
    if c = '\x7d' then
      match dropPfx closeTag (cs.dropWhile isPySpace) with
      | some rest => some (acc ++ [c], rest)
      | none => findClose (acc ++ [c]) cs
    else findClose (acc ++ [c]) cs

/-- Attempt a match of the TOOL_CALL pattern at the head of the input.
On success, return the captured brace-delimited group (as a string, the
argument later handed to json.loads) and the input remaining after the full
match. -/
def tryMatch (l : List Char) : Option (String × List Char) :=
  match dropPfx openTag l with
  | none => none
  | some l1 =>
    match l1.dropWhile isPySpace with
    | [] => none
    | c :: l3 =>
      if c = '\x7b' then
        match findClose [c] l3 with
        | some (cap, rest) => some (String.mk cap, rest)
        | none => none
      else none

/-- Fuel-indexed scan of the whole reply: simultaneously the list of
captured groups (re.findall) and the text with every matched span deleted
(re.sub with the empty replacement).  Fuel equal to the input length always
suffices, since a match consumes at least one character. -/
def scanB : Nat → List Char → List String × List Char
  | 0, l => ([], l)
  | _ + 1, [] => ([], [])
  | f + 1, c :: cs =>
    match tryMatch (c :: cs) with
    | some (cap, rest) =>
      let p := scanB f rest
      (cap :: p.1, p.2)
    | none =>
      let p := scanB f cs
      (p.1, c :: p.2)

/-- The scan with its canonical fuel. -/
def scanBlocks (l : List Char) : List String × List Char := scanB l.length l

/-- Python str.strip() (the final cleaned_response.strip()), on ASCII
whitespace. -/
def pyStripChars (l : List Char) : List Char :=
  ((l.dropWhile isPySpace).reverse.dropWhile isPySpace).reverse

/-- str.strip() on strings. -/
def pyStrip (s : String) : String := String.mk (pyStripChars s.data)

/-- str.lower(). -/
def pyLower (s : String) : String := String.mk (s.data.map Char.toLower)

/-- parse_tool_calls (tool_executor.py lines 28-53), parameterized by
json.loads.  loads models json.loads restricted to the brace-delimited
documents the capture produces: none on JSONDecodeError, otherwise the
field list of the resulting dict.  A captured block is kept only when it
parses and the dict has a "tool" key; the cleaned response is the input
with every matched span removed and then stripped. -/
def keepToolCalls (loads : String → Option JsonObj) (caps : List String) : List JsonObj :=
  caps.filterMap fun m =>
    match loads m with
    | some tool_call => if (jget tool_call "tool").isSome then some tool_call else none
    | none => none

def parse_tool_calls (loads : String → Option JsonObj) (response : String) :
    String × List JsonObj :=
  let p := scanBlocks response.data
  let tool_calls := keepToolCalls loads p.1
  (pyStrip (String.mk p.2), tool_calls)

/-- A reply decomposed as interleaved plain-text segments and TOOL_CALL
blocks. -/
inductive Seg where
  | txt (s : List Char)
  | blk (ws1 body ws2 : List Char)

/-- The characters a segment contributes to the reply. -/
def renderSeg : Seg → List Char
  | .txt s => s
  | .blk ws1 body ws2 =>
      openTag ++ (ws1 ++ ('\x7b' :: (body ++ ('\x7d' :: (ws2 ++ closeTag)))))

/-- The full reply text of a segment list. -/
def renderChars : List Seg → List Char
  | [] => []
  | g :: gs => renderSeg g ++ renderChars gs

/-- Side conditions making a decomposition unambiguous for the pattern:
text segments contain no opening angle bracket, the whitespace paddings
are whitespace, and the block body contains no closing brace. -/
def segOk : Seg → Prop
  | .txt s => ∀ c ∈ s, c ≠ '<'
  | .blk ws1 body ws2 =>
      (∀ c ∈ ws1, isPySpace c) ∧ (∀ c ∈ ws2, isPySpace c) ∧ '\x7d' ∉ body

/-- The reply with every block deleted: the concatenated text segments. -/
def segText : List Seg → List Char
  | [] => []
  | .txt s :: gs => s ++ segText gs
  | .blk _ _ _ :: gs => segText gs

/-- The captured groups, in order of appearance. -/
def segCaps : List Seg → List String
  | [] => []
  | .txt _ :: gs => segCaps gs
  | .blk _ body _ :: gs => String.mk ('\x7b' :: (body ++ ['\x7d'])) :: segCaps gs

instance (g : Seg) : Decidable (segOk g) := by
  cases g <;> (unfold segOk; infer_instance)

/-- Concrete stand-in for json.loads covering the documents used in the
extraction witness: two well-formed tool objects; everything else fails to
parse. -/
def loads0 : String → Option JsonObj := fun s =>
  if s = "\x7b\"tool\": \"create_triage\"\x7d" then
    some [("tool", Json.str "create_triage")]
  else if s = "\x7b\"tool\": \"request_appointment\"\x7d" then
    some [("tool", Json.str "request_appointment")]
  else none

/-- Segment decomposition used in the extraction witness: two well-formed
blocks, one malformed block, interleaved with plain text. -/
def segs0 : List Seg :=
  [ .txt "Okay, I can help. ".data,
    .blk [] "\"tool\": \"create_triage\"".data [' '],
    .txt " I have noted it. ".data,
    .blk [' ', '\n'] "bad json here".data [],
    .txt " Also: ".data,
    .blk [] "\"tool\": \"request_appointment\"".data [],
    .txt " Done.".data ]

/-- A json.loads stand-in that always fails (never consulted on a
blockless reply). -/
def loadsNone : String → Option JsonObj := fun _ => none

/-!
## Action dispatcher (src/common/llm/tool_executor.py, execute_tool_calls /
execute_request_appointment / execute_create_triage)
Database rows are embedded as records; the session is a DB value threaded
through the executors.  uuid4 primary keys are modelled by a fresh-id
counter.  A Python exception that would escape the executor (there is no
try/except around the tool loop) is modelled as Except.error.
-/
/-- The UrgencyLevel enum of src/models/models.py. -/
inductive UrgencyLevel where
  | low
  | normal
  | urgent
deriving DecidableEq

/-- The RequestStatus value used by the dispatcher. -/
inductive RequestStatus where
  | pending
deriving DecidableEq

/-- A Patient row (the fields the dispatcher reads). -/
structure PatientRec where
  id : Nat
  preferred_language : Option PreferredLanguage

/-- A PatientHospital link row. -/
structure PatientHospitalRec where
  patient_id : Nat
  hospital_id : Nat

/-- A TriageChat row.  The mapped columns (models.py lines 486-509) are id,
patient_id, triage_case_id, title, messages, language, is_active and the
timestamps — there is no triage_data column, although tool_executor.py
reads and writes one. -/
structure TriageChatRec where
  id : Nat
  patient_id : Nat
  language : PreferredLanguage
  messages : List Json
  is_active : Bool

/-- An AppointmentRequest row as created by the dispatcher. -/
structure ApptRequestRec where
  id : Nat
  patient_id : Nat
  hospital_id : Nat
  department : Json
  reason : Json
  preferred_type : String
  urgency : UrgencyLevel
  status : RequestStatus

/-- The database state visible to the dispatcher. -/
structure DB where
  triage_chats : List TriageChatRec
  patient_hospitals : List PatientHospitalRec
  appointment_requests : List ApptRequestRec
  next_id : Nat

/-- SQLAlchemy scalar_one_or_none on a result list: none for no row, the
row for one, MultipleResultsFound (raised) for more. -/
def scalar_one_or_none : List α → Except String (Option α)
  | [] => .ok none
  | [a] => .ok (some a)
  | _ => .error "MultipleResultsFound"

/-- A tool-result dict; each field models the identically named key, absent
keys are none. -/
structure ToolResult where
  success : Option Bool := none
  message : Option String := none
  request_id : Option Nat := none
  triage_id : Option Nat := none
  error : Option String := none
  urgency : Option Json := none
  department : Option Json := none
  urgency_level : Option Json := none

/-- urgency_map.get(urgency.lower(), UrgencyLevel.NORMAL). -/
def urgencyFromStr (u : String) : UrgencyLevel :=
  if pyLower u = "low" then .low
  else if pyLower u = "normal" then .normal
  else if pyLower u = "urgent" then .urgent
  else .normal

/-- The hospital-link query of execute_request_appointment: the patient's
first PatientHospital row (select ... limit 1). -/
def firstHospitalFor (db : DB) (pid : Nat) : Option PatientHospitalRec :=
  db.patient_hospitals.find? (fun ph => ph.patient_id == pid)

/-- execute_request_appointment (tool_executor.py lines 94-156).  params is
the raw JSON value of the "parameters" key: a .get on a non-dict value, or
.lower() on a non-string urgency, raises (Except.error), as in the
source. -/
def execute_request_appointment (db : DB) (patient : PatientRec) (params : Json) :
    Except String (ToolResult × DB) :=
  match params with
  | .obj fields =>
    let reason := jget fields "reason"
    let urgency := (jget fields "urgency").getD (.str "normal")
    let department := (jget fields "department").getD (.str "General Practice")
    if ¬ pyTruthyOpt reason then
      .ok ({ success := some false,
             message := some "Reason is required for appointment request" }, db)
    else
      match firstHospitalFor db patient.id with
      | none =>
        .ok ({ success := some false,
               message := some "Patient must be linked to a hospital to request appointments" },
             db)
      | some patient_hospital =>
        match urgency with
        | .str u =>
          let apt_request : ApptRequestRec :=
            { id := db.next_id,
              patient_id := patient.id,
              hospital_id := patient_hospital.hospital_id,
              department := department,
              reason := reason.getD .null,
              preferred_type := "in_person",
              urgency := urgencyFromStr u,
              status := .pending }
          .ok ({ success := some true,
                 message := some "Appointment request submitted successfully",
                 request_id := some apt_request.id,
                 urgency := some (.str u),
                 department := some department },
               { db with appointment_requests := db.appointment_requests ++ [apt_request],
                         next_id := db.next_id + 1 })
        | _ => .error "AttributeError: lower on non-string urgency"
  | _ => .error "AttributeError: get on non-dict parameters"

/-- The active-chat query of execute_create_triage (and the state process_chat
reads): all TriageChat rows for the patient with is_active set. -/
def activeFor (db : DB) (pid : Nat) : List TriageChatRec :=
  db.triage_chats.filter (fun c => c.patient_id == pid && c.is_active)

/-- execute_create_triage (tool_executor.py lines 159-225).  The active-chat
lookup uses scalar_one_or_none, which raises when the patient has more than
one active triage chat.  TriageChat has no triage_data column, so with
truthy symptoms both branches raise: the update branch at
existing_chat.triage_data (line 190, AttributeError on a plain declarative
instance) and the create branch at the TriageChat constructor (line 206,
TypeError for the unmapped triage_data keyword). -/
def execute_create_triage (db : DB) (patient : PatientRec) (params : Json) :
    Except String (ToolResult × DB) :=
  match params with
  | .obj fields =>
    let symptoms := jget fields "symptoms"
    let _urgency_level := (jget fields "urgency_level").getD (.str "medium")
    let _notes := (jget fields "notes").getD (.str "")
    if ¬ pyTruthyOpt symptoms then
      .ok ({ success := some false,
             message := some "Symptoms description is required" }, db)
    else
      match scalar_one_or_none (activeFor db patient.id) with
      | .error e => .error e
      | .ok (some _existing_chat) =>
        .error "AttributeError: TriageChat object has no attribute triage_data"
      | .ok none =>
        .error "TypeError: triage_data is an invalid keyword argument for TriageChat"
  | _ => .error "AttributeError: get on non-dict parameters"

/-- One entry of the results list built by execute_tool_calls. -/
structure ResultEntry where
  tool : Option Json
  result : ToolResult

/-- execute_tool_calls (tool_executor.py lines 56-91): execute the parsed
calls one at a time, in order, threading the session; unknown names get a
non-fatal error entry.  An exception inside an executor propagates (there
is no try/except in the loop). -/
def execute_tool_calls (db : DB) (patient : PatientRec) :
    List JsonObj → Except String (List ResultEntry × DB)
  | [] => .ok ([], db)
  | tool_call :: rest =>
    let tool_name := jget tool_call "tool"
    let params := (jget tool_call "parameters").getD (.obj [])
    if jeqStr tool_name "request_appointment" then
      match execute_request_appointment db patient params with
      | .error e => .error e
      | .ok (result, db1) =>
        match execute_tool_calls db1 patient rest with
        | .error e => .error e
        | .ok (results, db2) => .ok (⟨tool_name, result⟩ :: results, db2)
    else if jeqStr tool_name "create_triage" then
      match execute_create_triage db patient params with
      | .error e => .error e
      | .ok (result, db1) =>
        match execute_tool_calls db1 patient rest with
        | .error e => .error e
        | .ok (results, db2) => .ok (⟨tool_name, result⟩ :: results, db2)
    else
      match execute_tool_calls db patient rest with
      | .error e => .error e
      | .ok (results, db2) =>
        .ok (⟨tool_name, { error := some ("Unknown tool: " ++ jsonToStr tool_name) }⟩ :: results,
             db2)

/-- Projection of a request_appointment outcome: (success, request_id,
number of request rows). -/
def apptOutcome (p : ToolResult × DB) : Option Bool × Option Nat × Nat :=
  (p.1.success, p.1.request_id, p.2.appointment_requests.length)

/-- Projection of a dispatcher outcome: the number of result entries. -/
def resultsLength (p : List ResultEntry × DB) : Nat := p.1.length

/-- A state in which patient 1 has exactly one active TriageChat row. -/
def dbC2 : DB :=
  { triage_chats := [{ id := 0, patient_id := 1, language := .english,
                       messages := [], is_active := true }],
    patient_hospitals := [], appointment_requests := [], next_id := 1 }

/-- The patient of the create_triage examples. -/
def patientC2 : PatientRec := { id := 1, preferred_language := none }

/-- create_triage parameters with truthy symptoms. -/
def fieldsC2 : JsonObj := [("symptoms", .str "fever and chills")]

/-- A database in which patient 2 has one hospital link. -/
def dbH : DB :=
  { triage_chats := [],
    patient_hospitals := [{ patient_id := 2, hospital_id := 11 }],
    appointment_requests := [], next_id := 0 }

/-- The patient of the appointment examples. -/
def patientH : PatientRec := { id := 2, preferred_language := none }

/-- request_appointment parameters with a present reason but a non-string
urgency value. -/
def fieldsBad : JsonObj := [("reason", .str "checkup"), ("urgency", .num 5)]

/-- request_appointment parameters with reason and a string urgency. -/
def fieldsOk : JsonObj := [("reason", .str "checkup"), ("urgency", .str "urgent")]

/-- A tool name is recognized when it equals one of the two dispatch
targets. -/
def recognized (tool_call : JsonObj) : Bool :=
  jeqStr (jget tool_call "tool") "request_appointment" ||
    jeqStr (jget tool_call "tool") "create_triage"

/-- An empty database. -/
def dbE : DB :=
  { triage_chats := [], patient_hospitals := [], appointment_requests := [], next_id := 0 }

/-- The patient of the dispatcher examples. -/
def patientE : PatientRec := { id := 4, preferred_language := none }

/-- A parsed call whose "parameters" value is not a JSON object. -/
def toolCallBad : JsonObj := [("tool", .str "request_appointment"), ("parameters", .num 5)]

/-- The three calls of the dispatcher witness: an appointment request that
fails non-fatally (no hospital link), a triage creation that fails
non-fatally (missing symptoms), and an unknown action. -/
def toolCallsW : List JsonObj :=
  [ [("tool", .str "request_appointment"), ("parameters", .obj [("reason", .str "pain")])],
    [("tool", .str "create_triage"), ("parameters", .obj [])],
    [("tool", .str "greet")] ]

/-!
## Speech and translation clients (src/common/llm/transcription_service.py,
src/common/llm/translation_service.py) and the transcript cache
(transcribe_message, src/modules/messages/messages_service.py lines 585-710)
The outcome of each HTTP POST is an explicit parameter (the network is an
external collaborator); the body of each wrapper is translated branch by
branch.  transcribe_message returns the result payload, the committed
message row, and the ordered log of client invocations.  On the early error
return no commit runs, so the returned row is the unchanged one (the
session's uncommitted mutations are discarded with the request).
-/
/-- The fate of one HTTP POST: client-side timeout, non-success status
(raise_for_status), any other exception, or a decoded response payload. -/
inductive HttpOutcome (α : Type) where
  | timeout
  | httpError (code : Nat)
  | exn (msg : String)
  | ok (payload : α)

/-- A service-result dict as consumed downstream: its "error" and "text"
keys (absent keys are none). -/
structure SvcResult where
  error : Option String := none
  text : Option String := none

/-- transcribe_audio (transcription_service.py lines 9-56).  The ok payload
is the decoded response body (its error/text keys). -/
def transcribe_audio (asr_endpoint : Option String) (call : HttpOutcome SvcResult) :
    SvcResult :=
  match asr_endpoint with
  | none => { error := some "ASR endpoint not configured", text := some "" }
  | some _ =>
    match call with
    | .ok j => j
    | .timeout => { error := some "Transcription request timed out", text := some "" }
    | .httpError code => { error := some ("Transcription failed: " ++ toString code),
                           text := some "" }
    | .exn m => { error := some ("Transcription error: " ++ m), text := some "" }

/-- translate_text (translation_service.py lines 17-94).  The ok payload is
result.get("response") of the decoded body.  Every branch carries a "text"
key: the translation on success, the input text otherwise. -/
def translate_text (llm_endpoint : Option String) (call : HttpOutcome (Option String))
    (text source_language target_language : String) : SvcResult :=
  if pyLower source_language = pyLower target_language then { text := some text }
  else
    match llm_endpoint with
    | none => { error := some "LLM endpoint not configured", text := some text }
    | some _ =>
      match call with
      | .ok response =>
        let translated_text := pyStrip (response.getD "")
        if translated_text = "" then
          { error := some "Empty translation response", text := some text }
        else { text := some translated_text }
      | .timeout => { error := some "Translation request timed out", text := some text }
      | .httpError code => { error := some ("Translation failed: " ++ toString code),
                             text := some text }
      | .exn m => { error := some ("Translation error: " ++ m), text := some text }

/-- The external-service environment of one transcript request: the two
configured endpoint settings and the outcome each client call would
have (translation outcomes keyed by target language). -/
structure Env where
  asr_url : Option String
  llm_url : Option String
  asr_call : HttpOutcome SvcResult
  llm_call : String → HttpOutcome (Option String)

/-- One logged client invocation. -/
inductive ExtCall where
  | speech (audio_url language : String)
  | translation (text source target : String)

/-- The Message row fields transcribe_message touches. -/
structure MessageRec where
  attachment_url : Option String
  original_language : Option PreferredLanguage
  transcripts : Option (List (String × String))

/-- The dict returned by transcribe_message: an error payload, or the
text/language/original_language/cached/translated payload. -/
inductive TResult where
  | err (e : String)
  | ok (text : String) (language : String) (original_language : Option String)
      (cached : Bool) (translated : Bool)

/-- all_languages = ["english", "yoruba", "hausa", "igbo"]. -/
def all_languages : List String := ["english", "yoruba", "hausa", "igbo"]

/-- Python truthiness of result.get("error"). -/
def errTruthy : Option String → Bool
  | none => false
  | some e => e ≠ ""

/-- The translation loop of transcribe_message (lines 688-697): for each
language other than the spoken one and not already in the map, call
translate_text and store translation.get("text", original_text). -/
def populate (env : Env) (original_text spoken_lang : String) :
    List String → List (String × String) → List (String × String) × List ExtCall
  | [], transcripts => (transcripts, [])
  | lang :: rest, transcripts =>
    if lang ≠ spoken_lang ∧ (dlookup transcripts lang).isNone then
      let translation :=
        translate_text env.llm_url (env.llm_call lang) original_text spoken_lang lang
      let transcripts1 := dinsert transcripts lang (translation.text.getD original_text)
      let p := populate env original_text spoken_lang rest transcripts1
      (p.1, .translation original_text spoken_lang lang :: p.2)
    else
      populate env original_text spoken_lang rest transcripts

/-- The viewer's display language (lines 629-643): the lowered
view_language if given, else the viewer's preferred language, else
english. -/
def targetLanguage (view_language : Option String) (viewer_pref : Option PreferredLanguage) :
    String :=
  match view_language with
  | some v => pyLower v
  | none =>
    match viewer_pref with
    | some p => p.value
    | none => "english"

/-- The spoken-language determination (lines 657-672): on override, lower
it, coerce to the enum (English on ValueError) and clear the map; else use
the stored original_language or default to English, keeping the map.
Returns (spoken_lang, new original_language, working transcripts). -/
def spokenChoice (override_language : Option String)
    (orig : Option PreferredLanguage) (transcripts : List (String × String)) :
    String × Option PreferredLanguage × List (String × String) :=
  match override_language with
  | some ov =>
    (pyLower ov, some ((PreferredLanguage.ofString (pyLower ov)).getD .english), [])
  | none =>
    match orig with
    | some ol => (ol.value, some ol, transcripts)
    | none => ("english", some .english, transcripts)

/-- transcribe_message (messages_service.py lines 585-710), for an existing
message; viewer_pref models the viewer patient's preferred language (none
for clinicians or users without one).  Returns (result, committed row,
client-call log). -/
def transcribe_message (env : Env) (message : MessageRec)
    (viewer_pref : Option PreferredLanguage)
    (override_language : Option String) (view_language : Option String) :
    TResult × MessageRec × List ExtCall :=
  match message.attachment_url with
  | none => (.err "Message has no audio attachment", message, [])
  | some attachment_url =>
    let target_language := targetLanguage view_language viewer_pref
    let transcripts := message.transcripts.getD []
    if override_language = none ∧ (dlookup transcripts target_language).isSome then
      (.ok ((dlookup transcripts target_language).getD "") target_language
        (message.original_language.map PreferredLanguage.value) true
        (decide (message.original_language.map PreferredLanguage.value ≠ some target_language)),
       message, [])
    else
      let sc := spokenChoice override_language message.original_language transcripts
      let spoken_lang := sc.1
      let transcription_result := transcribe_audio env.asr_url env.asr_call
      if errTruthy transcription_result.error then
        (.err (transcription_result.error.getD ""), message,
         [.speech attachment_url spoken_lang])
      else
        let original_text := transcription_result.text.getD ""
        let transcripts2 := dinsert sc.2.2 spoken_lang original_text
        let p := populate env original_text spoken_lang all_languages transcripts2
        (.ok ((dlookup p.1 target_language).getD original_text) target_language
          (some spoken_lang) false (decide (target_language ≠ spoken_lang)),
         { message with original_language := sc.2.1, transcripts := some p.1 },
         .speech attachment_url spoken_lang :: p.2)

/-- The speech call itself failed (endpoint unset, timeout, HTTP error,
other exception, or a truthy error key in the response). -/
def speechFails (env : Env) : Prop :=
  errTruthy (transcribe_audio env.asr_url env.asr_call).error = true

/-- The translation call for a target language fails: endpoint unset,
timeout, HTTP error, other exception, or empty response. -/
def translationFails (env : Env) (lang : String) : Prop :=
  env.llm_url = none ∨ env.llm_call lang = .timeout ∨
    (∃ code, env.llm_call lang = .httpError code) ∨
    (∃ m, env.llm_call lang = .exn m) ∨
    (∃ r, env.llm_call lang = .ok r ∧ pyStrip (r.getD "") = "")

/-- Number of speech-client invocations in a log. -/
def countSpeech (log : List ExtCall) : Nat :=
  log.countP fun e => match e with | .speech _ _ => true | _ => false

/-- Number of translation-client invocations in a log. -/
def countTranslation (log : List ExtCall) : Nat :=
  log.countP fun e => match e with | .translation _ _ _ => true | _ => false

/-- The message of the cache-hit witness. -/
def msgC5 : MessageRec :=
  { attachment_url := some "blob://v1",
    original_language := some .english,
    transcripts := some [("english", "good morning"), ("yoruba", "eku aro")] }

/-- A healthy service environment (never consulted on a cache hit). -/
def envOk : Env :=
  { asr_url := some "http://asr", llm_url := some "http://llm",
    asr_call := .ok { text := some "good morning" },
    llm_call := fun _ => .ok (some "translated text") }

/-- An environment whose speech call times out. -/
def envC9 : Env :=
  { asr_url := some "http://asr", llm_url := some "http://llm",
    asr_call := .timeout, llm_call := fun _ => .ok (some "translated text") }

/-- The never-transcribed message of the speech-failure witness. -/
def msgC9 : MessageRec :=
  { attachment_url := some "blob://v2", original_language := none, transcripts := none }

/-- The message of the override witness: previously transcribed with2
cached entries under a wrong spoken-language guess. -/
def msgC3 : MessageRec :=
  { attachment_url := some "blob://v3",
    original_language := some .english,
    transcripts := some [("english", "stale guess"), ("hausa", "stale hausa")] }

/-- The never-transcribed voice message of scenario B. -/
def msgB : MessageRec :=
  { attachment_url := some "blob://v4", original_language := none, transcripts := none }

/-- An environment whose Hausa translation call times out while the others
succeed. -/
def envC6 : Env :=
  { asr_url := some "http://asr", llm_url := some "http://llm",
    asr_call := .ok { text := some "hello friend" },
    llm_call := fun lang => if lang = "hausa" then .timeout else .ok (some "translated") }

/-- The never-transcribed English message of the fallback witness. -/
def msgC6 : MessageRec :=
  { attachment_url := some "blob://v5", original_language := some .english,
    transcripts := none }

/-- The healthy environment of the unsupported-override run. -/
def envC10 : Env :=
  { asr_url := some "http://asr", llm_url := some "http://llm",
    asr_call := .ok { text := some "bonjour tout le monde" },
    llm_call := fun _ => .ok (some "translated") }

/-- The never-transcribed message of the unsupported-override run. -/
def msgC10 : MessageRec :=
  { attachment_url := some "blob://v6", original_language := none, transcripts := none }

/-! ## Theorems -/

theorem PreferredLanguage.value_ofString {s : String} {p : PreferredLanguage}
    (h : PreferredLanguage.ofString s = some p) : p.value = s := by
  unfold PreferredLanguage.ofString at h
  split_ifs at h <;> (cases h; simp_all [PreferredLanguage.value])

theorem dropPfx_length {p l r : List Char} (h : dropPfx p l = some r) :
    r.length + p.length = l.length := by
  induction p generalizing l with
  | nil => cases h; simp
  | cons a ps ih =>
    cases l with
    | nil => simp [dropPfx] at h
    | cons c cs =>
      simp only [dropPfx] at h
      split_ifs at h
      have := ih h
      simp [List.length_cons]
      omega

theorem dropPfx_append (p l : List Char) : dropPfx p (p ++ l) = some l := by
  induction p with
  | nil => rfl
  | cons a ps ih => simp [dropPfx, ih]

theorem dropWhile_length_le (p : Char → Bool) (l : List Char) :
    (l.dropWhile p).length ≤ l.length := by
  induction l with
  | nil => simp [List.dropWhile]
  | cons c cs ih =>
    simp only [List.dropWhile]
    split
    · exact le_trans ih (by simp)
    · simp

theorem findClose_length {acc l : List Char} {cap rest : List Char}
    (h : findClose acc l = some (cap, rest)) : rest.length < l.length := by
  induction l generalizing acc with
  | nil => simp [findClose] at h
  | cons c cs ih =>
    simp only [findClose] at h
    split_ifs at h with hc
    · rcases hdp : dropPfx closeTag (cs.dropWhile isPySpace) with _ | r
      · rw [hdp] at h
        have := ih h
        simpa using Nat.lt_succ_of_lt this
      · rw [hdp] at h
        cases h
        have h1 := dropPfx_length hdp
        have h2 : (cs.dropWhile isPySpace).length ≤ cs.length := dropWhile_length_le _ _
        simp [List.length_cons]
        omega
    · have := ih h
      simpa using Nat.lt_succ_of_lt this

theorem tryMatch_length {l : List Char} {cap : String} {rest : List Char}
    (h : tryMatch l = some (cap, rest)) : rest.length < l.length := by
  unfold tryMatch at h
  split at h
  · exact absurd h (by simp)
  next l1 hdp =>
    split at h
    · exact absurd h (by simp)
    next c l3 hdw =>
      split_ifs at h with hc
      · split at h
        next cap2 rest2 hfc =>
          cases h
          have h1 := findClose_length hfc
          have h2 : l3.length < l1.length := by
            have hle : (l1.dropWhile isPySpace).length ≤ l1.length := dropWhile_length_le _ _
            rw [hdw] at hle
            simp [List.length_cons] at hle
            omega
          have h3 := dropPfx_length hdp
          have h4 : openTag.length = 11 := by decide
          omega
        next hfc => exact absurd h (by simp)

theorem scanB_congr {f g : Nat} {l : List Char} (hf : l.length ≤ f) (hg : l.length ≤ g) :
    scanB f l = scanB g l := by
  induction f generalizing g l with
  | zero =>
    cases l with
    | nil => cases g <;> rfl
    | cons c cs => simp at hf
  | succ f ih =>
    cases l with
    | nil => cases g <;> rfl
    | cons c cs =>
      cases g with
      | zero => simp at hg
      | succ g =>
        rcases htm : tryMatch (c :: cs) with _ | ⟨cap, rest⟩
        · simp only [scanB, htm]
          have hcf : cs.length ≤ f := by simp only [List.length_cons] at hf; omega
          have hcg : cs.length ≤ g := by simp only [List.length_cons] at hg; omega
          rw [ih hcf hcg]
        · simp only [scanB, htm]
          have hr := tryMatch_length htm
          simp only [List.length_cons] at hr hf hg
          rw [ih (l := rest) (g := g) (by omega) (by omega)]

theorem scanBlocks_cons_none {c : Char} {cs : List Char}
    (htm : tryMatch (c :: cs) = none) :
    scanBlocks (c :: cs) = ((scanBlocks cs).1, c :: (scanBlocks cs).2) := by
  unfold scanBlocks
  simp only [List.length_cons, scanB, htm]

theorem scanBlocks_cons_match {c : Char} {cs : List Char} {cap : String} {rest : List Char}
    (htm : tryMatch (c :: cs) = some (cap, rest)) :
    scanBlocks (c :: cs) = (cap :: (scanBlocks rest).1, (scanBlocks rest).2) := by
  unfold scanBlocks
  simp only [List.length_cons, scanB, htm]
  have hr := tryMatch_length htm
  simp only [List.length_cons] at hr
  rw [scanB_congr (f := cs.length) (g := rest.length) (by omega) (le_refl _)]

theorem tryMatch_of_head_ne {c : Char} (cs : List Char) (hc : c ≠ '<') :
    tryMatch (c :: cs) = none := by
  have hop : openTag = '<' :: "TOOL_CALL>".data := by decide
  unfold tryMatch
  rw [hop]
  simp [dropPfx, Ne.symm hc]

theorem scanBlocks_nil : scanBlocks [] = ([], []) := rfl

theorem scanBlocks_append_txt {s : List Char} (rest : List Char)
    (hs : ∀ c ∈ s, c ≠ '<') :
    scanBlocks (s ++ rest) = ((scanBlocks rest).1, s ++ (scanBlocks rest).2) := by
  induction s with
  | nil => simp
  | cons c cs ih =>
    have h1 : tryMatch (c :: (cs ++ rest)) = none :=
      tryMatch_of_head_ne _ (hs c (by simp))
    rw [List.cons_append, scanBlocks_cons_none h1,
      ih (fun d hd => hs d (by simp [hd]))]
    simp

theorem findClose_cons_ne {c : Char} (hc : c ≠ '\x7d') (acc cs : List Char) :
    findClose acc (c :: cs) = findClose (acc ++ [c]) cs := by
  conv_lhs => unfold findClose
  rw [if_neg hc]

theorem findClose_append_body {body : List Char} (acc l : List Char)
    (hb : '\x7d' ∉ body) :
    findClose acc (body ++ l) = findClose (acc ++ body) l := by
  induction body generalizing acc with
  | nil => simp
  | cons c cs ih =>
    have hc : c ≠ '\x7d' := fun h => hb (by simp [h])
    rw [List.cons_append, findClose_cons_ne hc,
      ih _ (fun h => hb (by simp [h]))]
    simp

theorem dropWhile_append_all {w l : List Char} (hw : ∀ c ∈ w, isPySpace c)
    (hl : l.dropWhile isPySpace = l) :
    (w ++ l).dropWhile isPySpace = l := by
  induction w with
  | nil => simpa using hl
  | cons c cs ih =>
    rw [List.cons_append]
    rw [List.dropWhile_cons_of_pos (by simpa using hw c (by simp))]
    exact ih (fun d hd => hw d (by simp [hd]))

theorem dropWhile_closeTag (rest : List Char) :
    (closeTag ++ rest).dropWhile isPySpace = closeTag ++ rest := by
  have h : closeTag = '<' :: "/TOOL_CALL>".data := by decide
  rw [h, List.cons_append,
    List.dropWhile_cons_of_neg (by decide : ¬ (isPySpace '<' = true))]

theorem findClose_close (acc : List Char) {ws2 : List Char} (rest : List Char)
    (hw : ∀ c ∈ ws2, isPySpace c) :
    findClose acc ('\x7d' :: (ws2 ++ (closeTag ++ rest))) =
      some (acc ++ ['\x7d'], rest) := by
  unfold findClose
  rw [if_pos rfl, dropWhile_append_all hw (dropWhile_closeTag rest), dropPfx_append]

theorem tryMatch_blk {ws1 body ws2 : List Char} (rest : List Char)
    (h1 : ∀ c ∈ ws1, isPySpace c) (h2 : ∀ c ∈ ws2, isPySpace c)
    (hb : '\x7d' ∉ body) :
    tryMatch (renderSeg (.blk ws1 body ws2) ++ rest) =
      some (String.mk ('\x7b' :: (body ++ ['\x7d'])), rest) := by
  unfold renderSeg tryMatch
  rw [List.append_assoc, dropPfx_append]
  dsimp only
  have hdw : ((ws1 ++ ('\x7b' :: (body ++ ('\x7d' :: (ws2 ++ closeTag))))) ++ rest).dropWhile
      isPySpace = '\x7b' :: ((body ++ ('\x7d' :: (ws2 ++ closeTag))) ++ rest) := by
    rw [List.append_assoc, List.cons_append]
    exact dropWhile_append_all h1
      (List.dropWhile_cons_of_neg (by decide : ¬ (isPySpace '\x7b' = true)))
  rw [hdw]
  dsimp only
  rw [if_pos rfl]
  have hfc : findClose ['\x7b'] ((body ++ ('\x7d' :: (ws2 ++ closeTag))) ++ rest) =
      some ('\x7b' :: (body ++ ['\x7d']), rest) := by
    rw [List.append_assoc, List.cons_append,
      findClose_append_body _ _ hb, List.append_assoc,
      findClose_close _ _ h2]
    simp
  rw [hfc]

theorem scanBlocks_match {l : List Char} {cap : String} {rest : List Char}
    (hne : l ≠ []) (htm : tryMatch l = some (cap, rest)) :
    scanBlocks l = (cap :: (scanBlocks rest).1, (scanBlocks rest).2) := by
  cases l with
  | nil => exact absurd rfl hne
  | cons c cs => exact scanBlocks_cons_match htm

theorem scanBlocks_render (segs : List Seg) (h : ∀ g ∈ segs, segOk g) :
    scanBlocks (renderChars segs) = (segCaps segs, segText segs) := by
  induction segs with
  | nil => rfl
  | cons g gs ih =>
    rcases g with s | ⟨ws1, body, ws2⟩
    · have hs : ∀ c ∈ s, c ≠ '<' := h (.txt s) (by simp)
      rw [show renderChars (.txt s :: gs) = s ++ renderChars gs from rfl,
        scanBlocks_append_txt _ hs, ih (fun g hg => h g (by simp [hg]))]
      simp [segCaps, segText]
    · obtain ⟨h1, h2, hb⟩ := h (.blk ws1 body ws2) (by simp)
      have htm := tryMatch_blk (renderChars gs) h1 h2 hb
      have hne : renderSeg (Seg.blk ws1 body ws2) ++ renderChars gs ≠ [] := by
        unfold renderSeg
        intro hx
        rcases List.append_eq_nil.mp hx with ⟨hx1, _⟩
        rcases List.append_eq_nil.mp hx1 with ⟨hopen, _⟩
        exact absurd hopen (by decide)
      rw [show renderChars (.blk ws1 body ws2 :: gs) =
            renderSeg (.blk ws1 body ws2) ++ renderChars gs from rfl,
        scanBlocks_match hne htm, ih (fun g hg => h g (by simp [hg]))]
      simp [segCaps, segText]

/-- C1 (amended).  For every json.loads behaviour and every reply
decomposed into plain-text segments (containing no opening angle bracket)
and delimiter-enclosed blocks, parse_tool_calls returns, in order of
appearance, exactly those blocks whose content parses as a JSON object
naming a tool — a block that fails to parse, or parses without a "tool"
key, is dropped silently without aborting extraction of the others — and
the cleaned text equals the input with every block (well-formed or
malformed) removed and then stripped of leading and trailing whitespace;
in particular a reply with no block yields zero extracted calls and the
model text unchanged except for that stripping. -/
theorem parse_tool_calls_extracts (loads : String → Option JsonObj)
    (segs : List Seg) (h : ∀ g ∈ segs, segOk g) :
    parse_tool_calls loads (String.mk (renderChars segs)) =
      (pyStrip (String.mk (segText segs)), keepToolCalls loads (segCaps segs)) := by
  unfold parse_tool_calls
  rw [show (String.mk (renderChars segs)).data = renderChars segs from rfl,
    scanBlocks_render segs h]

/-- C1 witness: a reply with two well-formed blocks and one malformed block
yields exactly the two well-formed calls, in order, and the cleaned text is
the concatenated plain text, stripped. -/
theorem parse_tool_calls_extracts_witness :
    parse_tool_calls loads0 (String.mk (renderChars segs0)) =
      (pyStrip (String.mk (segText segs0)), keepToolCalls loads0 (segCaps segs0)) :=
  parse_tool_calls_extracts loads0 segs0 (by decide)

/-- C1 counterexample: the claim as stated asserts that a reply containing
no block is returned unmodified; parse_tool_calls additionally strips
leading and trailing whitespace, so the blockless reply "hello " comes back
as "hello", not "hello ". -/
theorem parse_tool_calls_strips_blockless :
    parse_tool_calls loadsNone "hello " = ("hello", []) ∧
      ("hello" : String) ≠ "hello " := by
  constructor
  · rfl
  · decide

/-- C2.  The claimed merge-or-create rule is the dispatcher's clear intent,
but TriageChat (models.py lines 486-509) has no triage_data column, so a
create_triage dispatch with truthy symptoms can never merge or create: with
no active chat the TriageChat constructor raises TypeError at the unmapped
triage_data keyword, and with one active chat reading
existing_chat.triage_data raises AttributeError; either way no case is
produced and the exception escapes the try/except-free loop. -/
theorem create_triage_always_raises :
    pyTruthyOpt (jget fieldsC2 "symptoms") = true ∧
    execute_create_triage dbE patientE (.obj fieldsC2) =
      .error "TypeError: triage_data is an invalid keyword argument for TriageChat" ∧
    execute_create_triage dbC2 patientC2 (.obj fieldsC2) =
      .error "AttributeError: TriageChat object has no attribute triage_data" :=
  ⟨rfl, rfl, rfl⟩

/-- C8 counterexample: reason is present and the patient is linked to a
hospital, so by the claim the dispatch should create one pending request
and return success; with a non-string urgency the code instead raises
AttributeError at urgency.lower(), creating nothing and aborting the
turn. -/
theorem request_appointment_raises_on_nonstring_urgency :
    pyTruthyOpt (jget fieldsBad "reason") = true ∧
    (firstHospitalFor dbH patientH.id).isSome = true ∧
    execute_request_appointment dbH patientH (.obj fieldsBad) =
      .error "AttributeError: lower on non-string urgency" :=
  ⟨rfl, rfl, rfl⟩

/-- C8 (amended).  For every request_appointment dispatch whose urgency
parameter is absent or a string: if the reason parameter is missing (or
falsy) or the patient has no hospital link, the executor returns a
structured non-fatal failure and creates no appointment request, leaving
the database unchanged; otherwise it creates exactly one appointment
request with status pending against the patient's first hospital link and
returns a success result carrying the new request's id.  (A non-string
urgency instead raises, per the counterexample.) -/
theorem request_appointment_spec (db : DB) (patient : PatientRec) (fields : JsonObj)
    (hurg : jget fields "urgency" = none ∨ ∃ u, jget fields "urgency" = some (.str u)) :
    (¬ pyTruthyOpt (jget fields "reason") = true →
      execute_request_appointment db patient (.obj fields) =
        .ok ({ success := some false,
               message := some "Reason is required for appointment request" }, db)) ∧
    (pyTruthyOpt (jget fields "reason") = true →
      firstHospitalFor db patient.id = none →
      execute_request_appointment db patient (.obj fields) =
        .ok ({ success := some false,
               message := some "Patient must be linked to a hospital to request appointments" },
             db)) ∧
    (∀ ph, pyTruthyOpt (jget fields "reason") = true →
      firstHospitalFor db patient.id = some ph →
      ∃ res db1 req, execute_request_appointment db patient (.obj fields) = .ok (res, db1) ∧
        res.success = some true ∧
        res.request_id = some db.next_id ∧
        db1.appointment_requests = db.appointment_requests ++ [req] ∧
        req.id = db.next_id ∧
        req.patient_id = patient.id ∧
        req.hospital_id = ph.hospital_id ∧
        req.status = .pending ∧
        db1.triage_chats = db.triage_chats) := by
  unfold execute_request_appointment
  dsimp only
  refine ⟨?_, ?_, ?_⟩
  · intro hr
    rw [if_pos hr]
  · intro hr hfind
    rw [if_neg (by simp [hr]), hfind]
  · intro ph hr hfind
    rcases hurg with hu | ⟨u, hu⟩
    · rw [if_neg (by simp [hr]), hfind, hu]
      exact ⟨_, _, _, rfl, rfl, rfl, rfl, rfl, rfl, rfl, rfl, rfl⟩
    · rw [if_neg (by simp [hr]), hfind, hu]
      exact ⟨_, _, _, rfl, rfl, rfl, rfl, rfl, rfl, rfl, rfl, rfl⟩

/-- C8 witness: the linked patient with a well-typed dispatch gets one new
pending request, id 0, and a success result. -/
theorem request_appointment_spec_witness :
    (execute_request_appointment dbH patientH (.obj fieldsOk)).map apptOutcome =
      .ok (some true, some 0, 1) := by
  obtain ⟨_, _, h3⟩ :=
    request_appointment_spec dbH patientH fieldsOk (Or.inr ⟨"urgent", rfl⟩)
  obtain ⟨res, db1, req, heq, hs, hr, happ, _⟩ :=
    h3 { patient_id := 2, hospital_id := 11 } (by rfl) (by rfl)
  rw [heq]
  simp only [Except.map, apptOutcome]
  rw [hs, hr, happ]
  rfl

theorem request_appointment_ok (db : DB) (patient : PatientRec) (fields : JsonObj)
    (hurg : jget fields "urgency" = none ∨ ∃ u, jget fields "urgency" = some (.str u)) :
    ∃ res db1, execute_request_appointment db patient (.obj fields) = .ok (res, db1) ∧
      res.success.isSome = true ∧ db1.triage_chats = db.triage_chats := by
  unfold execute_request_appointment
  dsimp only
  by_cases hr : pyTruthyOpt (jget fields "reason") = true
  · rw [if_neg (by simp [hr])]
    rcases hfind : firstHospitalFor db patient.id with
      _ | ph
    · exact ⟨_, _, rfl, rfl, rfl⟩
    · rcases hurg with hu | ⟨u, hu⟩ <;> rw [hu] <;> exact ⟨_, _, rfl, rfl, rfl⟩
  · rw [if_pos hr]
    exact ⟨_, _, rfl, rfl, rfl⟩

theorem create_triage_falsy_ok (db : DB) (patient : PatientRec) (fields : JsonObj)
    (hs : pyTruthyOpt (jget fields "symptoms") = false) :
    execute_create_triage db patient (.obj fields) =
      .ok ({ success := some false,
             message := some "Symptoms description is required" }, db) := by
  unfold execute_create_triage
  dsimp only
  rw [if_pos (by simp [hs])]

/-- C7 counterexample: a call whose parameters value is a number makes
params.get raise AttributeError inside the executor; there is no
try/except in the loop, so the failure propagates out of the turn and no
result entry is produced — contradicting the claim that no action failure
raises and that each call yields one structured result. -/
theorem execute_tool_calls_raises_on_nondict_params :
    execute_tool_calls dbE patientE [toolCallBad] =
      .error "AttributeError: get on non-dict parameters" :=
  rfl

/-- C7 (amended).  For every list of parsed calls whose parameters value is
a JSON object, whose urgency (for request_appointment) is absent or a
string, and whose symptoms (for create_triage) is absent or falsy: the
dispatcher executes them one at a time in the order they appeared,
producing exactly one result entry per call; a failing recognized action is
converted into a structured result carrying a success flag, an unrecognized
name yields a non-fatal unknown-action error entry, execution of the
subsequent calls continues regardless, and no failure escapes the loop.
(Outside these conditions the loop raises and the turn aborts: a malformed
parameters value per the counterexample, and — because TriageChat has no
triage_data column — every create_triage call with truthy symptoms.) -/
theorem execute_tool_calls_spec (db : DB) (patient : PatientRec)
    (tool_calls : List JsonObj)
    (hok : ∀ tc ∈ tool_calls, ∃ fields,
      (jget tc "parameters").getD (.obj []) = .obj fields ∧
      (jeqStr (jget tc "tool") "request_appointment" = true →
        jget fields "urgency" = none ∨ ∃ u, jget fields "urgency" = some (.str u)) ∧
      (jeqStr (jget tc "tool") "create_triage" = true →
        pyTruthyOpt (jget fields "symptoms") = false)) :
    ∃ results db1, execute_tool_calls db patient tool_calls = .ok (results, db1) ∧
      List.Forall₂ (fun (r : ResultEntry) (tc : JsonObj) =>
          r.tool = jget tc "tool" ∧
          (recognized tc = true → r.result.success.isSome = true) ∧
          (recognized tc = false →
            r.result.error.isSome = true ∧ r.result.success = none))
        results tool_calls := by
  induction tool_calls generalizing db with
  | nil => exact ⟨[], db, rfl, List.Forall₂.nil⟩
  | cons tc rest ih =>
    obtain ⟨fields, hpf, hurg, hsym⟩ := hok tc (by simp)
    have hokrest : ∀ t ∈ rest, ∃ fields,
        (jget t "parameters").getD (.obj []) = .obj fields ∧
        (jeqStr (jget t "tool") "request_appointment" = true →
          jget fields "urgency" = none ∨ ∃ u, jget fields "urgency" = some (.str u)) ∧
        (jeqStr (jget t "tool") "create_triage" = true →
          pyTruthyOpt (jget fields "symptoms") = false) :=
      fun t ht => hok t (by simp [ht])
    by_cases h1 : jeqStr (jget tc "tool") "request_appointment" = true
    · obtain ⟨res, db1, heq, hsucc, hpres⟩ :=
        request_appointment_ok db patient fields (hurg h1)
      obtain ⟨results, db2, heq2, hfa⟩ := ih db1 hokrest
      refine ⟨⟨jget tc "tool", res⟩ :: results, db2, ?_, ?_⟩
      · unfold execute_tool_calls
        dsimp only
        rw [if_pos h1, hpf, heq]
        dsimp only
        rw [heq2]
      · exact List.Forall₂.cons
          ⟨rfl, fun _ => hsucc, fun hrec => by simp [recognized, h1] at hrec⟩ hfa
    · by_cases h2 : jeqStr (jget tc "tool") "create_triage" = true
      · have heq := create_triage_falsy_ok db patient fields (hsym h2)
        obtain ⟨results, db2, heq2, hfa⟩ := ih db hokrest
        refine ⟨⟨jget tc "tool",
            { success := some false,
              message := some "Symptoms description is required" }⟩ :: results,
          db2, ?_, ?_⟩
        · unfold execute_tool_calls
          dsimp only
          rw [if_neg h1, if_pos h2, hpf, heq]
          dsimp only
          rw [heq2]
        · exact List.Forall₂.cons
            ⟨rfl, fun _ => rfl, fun hrec => by simp [recognized, h2] at hrec⟩ hfa
      · obtain ⟨results, db2, heq2, hfa⟩ := ih db hokrest
        refine ⟨⟨jget tc "tool",
            { error := some ("Unknown tool: " ++ jsonToStr (jget tc "tool")) }⟩ :: results,
          db2, ?_, ?_⟩
        · unfold execute_tool_calls
          dsimp only
          rw [if_neg h1, if_neg h2, heq2]
        · refine List.Forall₂.cons ⟨rfl, fun hrec => ?_, fun _ => ⟨rfl, rfl⟩⟩ hfa
          simp [recognized, h1, h2] at hrec

/-- C7 witness: the three calls all produce result entries — the turn
completes with exactly one entry per call. -/
theorem execute_tool_calls_spec_witness :
    (execute_tool_calls dbE patientE toolCallsW).map resultsLength = .ok 3 := by
  have hok : ∀ tc ∈ toolCallsW, ∃ fields,
      (jget tc "parameters").getD (.obj []) = .obj fields ∧
      (jeqStr (jget tc "tool") "request_appointment" = true →
        jget fields "urgency" = none ∨ ∃ u, jget fields "urgency" = some (.str u)) ∧
      (jeqStr (jget tc "tool") "create_triage" = true →
        pyTruthyOpt (jget fields "symptoms") = false) := by
    intro tc htc
    simp only [toolCallsW, List.mem_cons, List.not_mem_nil, or_false] at htc
    rcases htc with h | h | h <;> subst h
    · exact ⟨[("reason", .str "pain")], rfl, fun _ => Or.inl rfl,
        fun h => absurd h (by decide)⟩
    · exact ⟨[], rfl, fun h => absurd h (by decide), fun _ => rfl⟩
    · exact ⟨[], rfl, fun h => absurd h (by decide), fun h => absurd h (by decide)⟩
  obtain ⟨results, db1, heq, hfa⟩ :=
    execute_tool_calls_spec dbE patientE toolCallsW hok
  rw [heq]
  simp only [Except.map, resultsLength]
  rw [hfa.length_eq]
  rfl

theorem dlookup_dinsert_self (d : List (String × String)) (k v : String) :
    dlookup (dinsert d k v) k = some v := by
  induction d with
  | nil => simp [dinsert, dlookup]
  | cons f rest ih =>
    obtain ⟨k1, v1⟩ := f
    by_cases h : k1 = k <;> simp [dinsert, dlookup, h, ih]

theorem dlookup_dinsert_ne (d : List (String × String)) {k k1 : String} (v : String)
    (h : k1 ≠ k) : dlookup (dinsert d k1 v) k = dlookup d k := by
  induction d with
  | nil => simp [dinsert, dlookup, h]
  | cons f rest ih =>
    obtain ⟨k2, v2⟩ := f
    by_cases h2 : k2 = k1
    · subst h2
      simp [dinsert, dlookup, h]
    · simp [dinsert, dlookup, h2, ih]

theorem populate_preserves (env : Env) (ot sp : String) (langs : List String)
    (ts : List (String × String)) {l v : String} (h : dlookup ts l = some v) :
    dlookup (populate env ot sp langs ts).1 l = some v := by
  induction langs generalizing ts with
  | nil => exact h
  | cons lang rest ih =>
    unfold populate
    by_cases hg : lang ≠ sp ∧ (dlookup ts lang).isNone
    · rw [if_pos hg]
      dsimp only
      apply ih
      have hne : lang ≠ l := by
        intro he
        subst he
        rw [h] at hg
        simp at hg
      rw [dlookup_dinsert_ne _ _ hne]
      exact h
    · rw [if_neg hg]
      exact ih ts h

theorem populate_mem (env : Env) (ot sp : String) (langs : List String)
    (ts : List (String × String)) {l : String} (hl : l ∈ langs) (hne : l ≠ sp) :
    (dlookup (populate env ot sp langs ts).1 l).isSome = true := by
  induction langs generalizing ts with
  | nil => simp at hl
  | cons lang rest ih =>
    unfold populate
    by_cases hll : l = lang
    · subst hll
      rcases hmem : dlookup ts l with _ | v
      · rw [if_pos ⟨hne, by simp⟩]
        dsimp only
        rw [populate_preserves env ot sp rest _ (dlookup_dinsert_self ts l _)]
        rfl
      · rw [if_neg (by simp)]
        rw [populate_preserves env ot sp rest ts hmem]
        rfl
    · have hl' : l ∈ rest := by
        rcases List.mem_cons.mp hl with h | h
        · exact absurd h hll
        · exact h
      by_cases hg : lang ≠ sp ∧ (dlookup ts lang).isNone
      · rw [if_pos hg]
        dsimp only
        exact ih _ hl'
      · rw [if_neg hg]
        exact ih ts hl'

theorem populate_value (env : Env) (ot sp : String) (langs : List String)
    (ts : List (String × String)) {l : String} (hl : l ∈ langs) (hne : l ≠ sp)
    (hmiss : dlookup ts l = none) :
    dlookup (populate env ot sp langs ts).1 l =
      some ((translate_text env.llm_url (env.llm_call l) ot sp l).text.getD ot) := by
  induction langs generalizing ts with
  | nil => simp at hl
  | cons lang rest ih =>
    unfold populate
    by_cases hll : l = lang
    · subst hll
      rw [if_pos ⟨Ne.symm (fun he => hne he.symm), by rw [hmiss]; rfl⟩]
      dsimp only
      exact populate_preserves env ot sp rest _ (dlookup_dinsert_self ts l _)
    · have hl' : l ∈ rest := by
        rcases List.mem_cons.mp hl with h | h
        · exact absurd h hll
        · exact h
      by_cases hg : lang ≠ sp ∧ (dlookup ts lang).isNone
      · rw [if_pos hg]
        dsimp only
        apply ih _ hl'
        rw [dlookup_dinsert_ne _ _ (fun he => hll he.symm)]
        exact hmiss
      · rw [if_neg hg]
        exact ih ts hl' hmiss

theorem populate_no_speech (env : Env) (ot sp : String) (langs : List String)
    (ts : List (String × String)) :
    countSpeech (populate env ot sp langs ts).2 = 0 := by
  induction langs generalizing ts with
  | nil => rfl
  | cons lang rest ih =>
    unfold populate
    by_cases hg : lang ≠ sp ∧ (dlookup ts lang).isNone
    · rw [if_pos hg]
      dsimp only
      unfold countSpeech
      rw [List.countP_cons]
      have hrec := ih (dinsert ts lang
        ((translate_text env.llm_url (env.llm_call lang) ot sp lang).text.getD ot))
      unfold countSpeech at hrec
      rw [hrec]
      rfl
    · rw [if_neg hg]
      exact ih ts

theorem populate_log_le (env : Env) (ot sp : String) (langs : List String)
    (ts : List (String × String)) :
    (populate env ot sp langs ts).2.length ≤
      (langs.filter (fun l => l ≠ sp)).length := by
  induction langs generalizing ts with
  | nil => simp [populate]
  | cons lang rest ih =>
    unfold populate
    by_cases hg : lang ≠ sp ∧ (dlookup ts lang).isNone
    · rw [if_pos hg]
      dsimp only
      rw [List.filter_cons_of_pos (by simpa using hg.1)]
      simpa using ih _
    · rw [if_neg hg]
      calc (populate env ot sp rest ts).2.length
          ≤ (rest.filter (fun l => l ≠ sp)).length := ih ts
        _ ≤ ((lang :: rest).filter (fun l => l ≠ sp)).length := by
            by_cases hp : lang ≠ sp
            · rw [List.filter_cons_of_pos (by simpa using hp)]
              simp
            · rw [List.filter_cons_of_neg (by simpa using hp)]

theorem PreferredLanguage.value_mem (p : PreferredLanguage) : p.value ∈ all_languages := by
  cases p <;> decide

theorem filter_ne_length {sp : String} (hsp : sp ∈ all_languages) :
    (all_languages.filter (fun l => l ≠ sp)).length = 3 := by
  simp only [all_languages, List.mem_cons, List.not_mem_nil, or_false] at hsp
  rcases hsp with h | h | h | h <;> subst h <;> decide

/-- The cache-hit path of transcribe_message: no override and the display
language already cached. -/
theorem transcribe_cache_eq (env : Env) (message : MessageRec)
    (viewer_pref : Option PreferredLanguage) (view_language : Option String)
    {url : String} {t : String}
    (hatt : message.attachment_url = some url)
    (hcache : dlookup (message.transcripts.getD [])
        (targetLanguage view_language viewer_pref) = some t) :
    transcribe_message env message viewer_pref none view_language =
      (.ok t (targetLanguage view_language viewer_pref)
        (message.original_language.map PreferredLanguage.value) true
        (decide (message.original_language.map PreferredLanguage.value ≠
          some (targetLanguage view_language viewer_pref))),
       message, []) := by
  unfold transcribe_message
  rw [hatt]
  dsimp only
  rw [if_pos ⟨rfl, by rw [hcache]; rfl⟩, hcache]
  rfl

/-- The early-error path of transcribe_message: no cache hit and the
speech call fails. -/
theorem transcribe_err_eq (env : Env) (message : MessageRec)
    (viewer_pref : Option PreferredLanguage)
    (override_language view_language : Option String) {url : String}
    (hatt : message.attachment_url = some url)
    (hnocache : ¬ (override_language = none ∧
      (dlookup (message.transcripts.getD [])
        (targetLanguage view_language viewer_pref)).isSome = true))
    (hfail : speechFails env) :
    transcribe_message env message viewer_pref override_language view_language =
      (.err ((transcribe_audio env.asr_url env.asr_call).error.getD ""), message,
       [.speech url (spokenChoice override_language message.original_language
          (message.transcripts.getD [])).1]) := by
  unfold transcribe_message
  rw [hatt]
  dsimp only
  unfold speechFails at hfail
  rw [if_neg hnocache, if_pos hfail]

/-- The population path of transcribe_message: no cache hit and the speech
call succeeds.  sp / newOrig / base name the spoken language, the language
written back, and the working map chosen at lines 657-672; ot is the speech
text and target the display language. -/
theorem transcribe_population_eq (env : Env) (message : MessageRec)
    (viewer_pref : Option PreferredLanguage)
    (override_language view_language : Option String) {url : String}
    {sp target ot : String} {newOrig : Option PreferredLanguage}
    {base : List (String × String)}
    (hatt : message.attachment_url = some url)
    (hsc : spokenChoice override_language message.original_language
      (message.transcripts.getD []) = (sp, newOrig, base))
    (htarget : targetLanguage view_language viewer_pref = target)
    (hot : (transcribe_audio env.asr_url env.asr_call).text.getD "" = ot)
    (hnocache : ¬ (override_language = none ∧
      (dlookup (message.transcripts.getD [])
        (targetLanguage view_language viewer_pref)).isSome = true))
    (hok : ¬ speechFails env) :
    transcribe_message env message viewer_pref override_language view_language =
      (.ok ((dlookup (populate env ot sp all_languages (dinsert base sp ot)).1 target).getD ot)
         target (some sp) false (decide (target ≠ sp)),
       { message with original_language := newOrig,
                      transcripts := some (populate env ot sp all_languages
                        (dinsert base sp ot)).1 },
       .speech url sp :: (populate env ot sp all_languages (dinsert base sp ot)).2) := by
  unfold transcribe_message
  rw [hatt]
  dsimp only
  unfold speechFails at hok
  rw [if_neg hnocache, if_neg hok, hsc, htarget, hot]

theorem translate_text_fail (env : Env) (lang text source : String)
    (hf : translationFails env lang) :
    (translate_text env.llm_url (env.llm_call lang) text source lang).text = some text := by
  unfold translate_text
  by_cases hsame : pyLower source = pyLower lang
  · rw [if_pos hsame]
  · rw [if_neg hsame]
    rcases hu : env.llm_url with _ | u
    · rfl
    · unfold translationFails at hf
      rcases hf with h | h | ⟨code, h⟩ | ⟨m, h⟩ | ⟨r, h, hs⟩
    
      · rw [hu] at h
        cases h
      · rw [h]
      · rw [h]
      · rw [h]
      · rw [h]
        dsimp only
        rw [if_pos hs]

/-- C5.  For every message with an audio attachment, if no override is
given and the display language's key is already present in the transcripts
map, transcribe_message returns the cached text immediately — the result is
the cached entry marked cached, the stored row is returned unchanged (map
and spoken-language tag untouched), and the client-call log is empty, so a
repeated call for an already-cached language issues zero additional network
calls. -/
theorem transcribe_cache_hit (env : Env) (message : MessageRec)
    (viewer_pref : Option PreferredLanguage) (view_language : Option String)
    {url t : String}
    (hatt : message.attachment_url = some url)
    (hcache : dlookup (message.transcripts.getD [])
        (targetLanguage view_language viewer_pref) = some t) :
    transcribe_message env message viewer_pref none view_language =
      (.ok t (targetLanguage view_language viewer_pref)
        (message.original_language.map PreferredLanguage.value) true
        (decide (message.original_language.map PreferredLanguage.value ≠
          some (targetLanguage view_language viewer_pref))),
       message, []) :=
  transcribe_cache_eq env message viewer_pref view_language hatt hcache

/-- C5 witness: a viewer asking for the cached Yoruba entry gets it back
with an unchanged row and an empty call log. -/
theorem transcribe_cache_hit_witness :
    transcribe_message envOk msgC5 none none (some "Yoruba") =
      (.ok "eku aro" "yoruba" (some "english") true true, msgC5, []) := by
  have h := transcribe_cache_hit envOk msgC5 none (some "Yoruba") rfl
    (show dlookup (msgC5.transcripts.getD [])
      (targetLanguage (some "Yoruba") none) = some "eku aro" by decide)
  rw [h, show targetLanguage (some "Yoruba") none = "yoruba" from by decide]
  rfl

/-- C9.  For every transcript request on a message with an audio
attachment: when the request reaches the speech client and that call fails
(endpoint unset, timeout, non-success status, other exception, or an error
payload), transcribe_message surfaces the explicit speech error — an error
result carrying no transcript text; in every other case (cache hit, or a
successful speech call) the request returns some text: cached, freshly
transcribed, or fallback. -/
theorem transcribe_err_or_text (env : Env) (message : MessageRec)
    (viewer_pref : Option PreferredLanguage)
    (override_language view_language : Option String) {url : String}
    (hatt : message.attachment_url = some url) :
    ((¬ (override_language = none ∧
        (dlookup (message.transcripts.getD [])
          (targetLanguage view_language viewer_pref)).isSome = true) ∧ speechFails env) →
      (transcribe_message env message viewer_pref override_language view_language).1 =
        .err ((transcribe_audio env.asr_url env.asr_call).error.getD "")) ∧
    (((override_language = none ∧
        (dlookup (message.transcripts.getD [])
          (targetLanguage view_language viewer_pref)).isSome = true) ∨ ¬ speechFails env) →
      ∃ t lg ol c tr,
        (transcribe_message env message viewer_pref override_language view_language).1 =
          .ok t lg ol c tr) := by
  constructor
  · rintro ⟨hnocache, hfail⟩
    rw [transcribe_err_eq env message viewer_pref override_language view_language hatt
      hnocache hfail]
  · rintro (⟨ho, hsome⟩ | hok)
    · subst ho
      obtain ⟨t, ht⟩ := Option.isSome_iff_exists.mp hsome
      rw [transcribe_cache_eq env message viewer_pref view_language hatt ht]
      exact ⟨_, _, _, _, _, rfl⟩
    · by_cases hc : override_language = none ∧
        (dlookup (message.transcripts.getD [])
          (targetLanguage view_language viewer_pref)).isSome = true
    
      · obtain ⟨ho, hsome⟩ := hc
        subst ho
        obtain ⟨t, ht⟩ := Option.isSome_iff_exists.mp hsome
        rw [transcribe_cache_eq env message viewer_pref view_language hatt ht]
        exact ⟨_, _, _, _, _, rfl⟩
      · rw [transcribe_population_eq env message viewer_pref override_language view_language
          hatt rfl rfl rfl hc hok]
        exact ⟨_, _, _, _, _, rfl⟩

/-- C9 witness: with a timed-out speech call and no cached entry, the
request surfaces the explicit transcription error. -/
theorem transcribe_err_or_text_witness :
    (transcribe_message envC9 msgC9 none none (some "english")).1 =
      .err "Transcription request timed out" := by
  have h := (transcribe_err_or_text envC9 msgC9 none none (some "english")
    rfl).1 ⟨by decide, by unfold speechFails; decide⟩
  rw [h]
  rfl

/-- C3.  For every message with an attachment and every supported override
language L2 (up to letter case), when the speech call succeeds a
getTranscript call with overrideSpokenLanguage = L2 sets the message's
spoken language to L2, discards the entire previously cached transcripts
map — the run is identical to one on a message with no stored transcripts,
so all four keys of the old map are gone — and the repopulation that
follows stores the fresh speech text under the key L2. -/
theorem transcribe_override_invalidates (env : Env) (message : MessageRec)
    (viewer_pref : Option PreferredLanguage) (view_language : Option String)
    {url L2 : String} {p : PreferredLanguage}
    (hatt : message.attachment_url = some url)
    (hp : PreferredLanguage.ofString (pyLower L2) = some p)
    (hok : ¬ speechFails env) :
    transcribe_message env message viewer_pref (some L2) view_language =
      transcribe_message env { message with transcripts := none } viewer_pref
        (some L2) view_language ∧
    (∀ res m1 log,
      transcribe_message env message viewer_pref (some L2) view_language = (res, m1, log) →
      m1.original_language = some p ∧
      dlookup (m1.transcripts.getD []) (pyLower L2) =
        some ((transcribe_audio env.asr_url env.asr_call).text.getD "")) := by
  have e1 := transcribe_population_eq env message viewer_pref (some L2) view_language
    hatt rfl rfl rfl (by simp) hok
  have e2 := transcribe_population_eq env { message with transcripts := none } viewer_pref
    (some L2) view_language hatt rfl rfl rfl (by simp) hok
  constructor
  · rw [e1, e2]
  · intro res m1 log h
    rw [e1] at h
    rw [Prod.mk.injEq, Prod.mk.injEq] at h
    obtain ⟨h1, h2, h3⟩ := h
    constructor
    · rw [← h2]
      dsimp only
      rw [hp]
      rfl
    · rw [← h2]
      exact populate_preserves env _ _ _ _ (dlookup_dinsert_self _ _ _)

/-- C3 witness: overriding the spoken language to Yoruba retags the row,
wipes the old entries (the run equals the run on an empty map), and keys
the fresh speech text under yoruba. -/
theorem transcribe_override_invalidates_witness :
    transcribe_message envOk msgC3 none (some "Yoruba") (some "english") =
      transcribe_message envOk { msgC3 with transcripts := none } none
        (some "Yoruba") (some "english") ∧
    (transcribe_message envOk msgC3 none (some "Yoruba") (some "english")).2.1.original_language =
      some .yoruba ∧
    dlookup ((transcribe_message envOk msgC3 none (some "Yoruba")
        (some "english")).2.1.transcripts.getD []) "yoruba" = some "good morning" := by
  obtain ⟨h1, h2⟩ := transcribe_override_invalidates envOk msgC3 none (some "english")
    rfl
    (show PreferredLanguage.ofString (pyLower "Yoruba") = some PreferredLanguage.yoruba
      by decide)
    (by unfold speechFails; decide)
  obtain ⟨ha, hb⟩ := h2 _ _ _ rfl
  exact ⟨h1, ha, hb⟩

/-- C4.  For every message with an attachment whose transcripts map is
empty, if the speech call succeeds then a single no-override
transcribe_message call leaves the stored map containing text under all
four supported language keys — the speech output under the spoken-language
key (defaulting to English, and persisting that default on the row, when no
spoken language was ever set) and an entry (translation or fallback) under
each of the other three — making exactly one speech-client call and at most
three translation-client calls, and it returns the text stored under the
requested display language. -/
theorem transcribe_first_call_populates (env : Env) (message : MessageRec)
    (viewer_pref : Option PreferredLanguage) (view_language : Option String)
    {url : String}
    (hatt : message.attachment_url = some url)
    (hts : message.transcripts.getD [] = [])
    (htarget : targetLanguage view_language viewer_pref ∈ all_languages)
    (hok : ¬ speechFails env) :
    ∀ res m1 log,
      transcribe_message env message viewer_pref none view_language = (res, m1, log) →
      (∀ l ∈ all_languages, (dlookup (m1.transcripts.getD []) l).isSome = true) ∧
      dlookup (m1.transcripts.getD [])
          ((message.original_language.map PreferredLanguage.value).getD "english") =
        some ((transcribe_audio env.asr_url env.asr_call).text.getD "") ∧
      m1.original_language = some (message.original_language.getD .english) ∧
      (∃ t, dlookup (m1.transcripts.getD [])
            (targetLanguage view_language viewer_pref) = some t ∧
        res = .ok t (targetLanguage view_language viewer_pref)
          (some ((message.original_language.map PreferredLanguage.value).getD "english"))
          false
          (decide (targetLanguage view_language viewer_pref ≠
            (message.original_language.map PreferredLanguage.value).getD "english"))) ∧
      countSpeech log = 1 ∧ countTranslation log ≤ 3 := by
  have hnocache : ¬ ((none : Option String) = none ∧
      (dlookup (message.transcripts.getD [])
        (targetLanguage view_language viewer_pref)).isSome = true) := by
    rw [hts]
    simp [dlookup]
  have hsc : spokenChoice none message.original_language (message.transcripts.getD []) =
      ((message.original_language.map PreferredLanguage.value).getD "english",
       some (message.original_language.getD .english), []) := by
    rw [hts]
    rcases message.original_language with _ | ol <;> rfl
  have hspmem :
      (message.original_language.map PreferredLanguage.value).getD "english" ∈
        all_languages := by
    rcases message.original_language with _ | ol
    · decide
    · simpa using PreferredLanguage.value_mem ol
  have e := transcribe_population_eq env message viewer_pref none view_language hatt hsc
    rfl rfl hnocache hok
  set ot := (transcribe_audio env.asr_url env.asr_call).text.getD "" with hot
  set sp := (message.original_language.map PreferredLanguage.value).getD "english" with hsp
  set P := populate env ot sp all_languages (dinsert [] sp ot) with hP
  intro res m1 log h
  rw [e] at h
  rw [Prod.mk.injEq, Prod.mk.injEq] at h
  obtain ⟨h1, h2, h3⟩ := h
  have hm : m1.transcripts.getD [] = P.1 := by rw [← h2]; rfl
  have horig : m1.original_language = some (message.original_language.getD .english) := by
    rw [← h2]
  have hall : ∀ l ∈ all_languages, (dlookup (m1.transcripts.getD []) l).isSome = true := by
    intro l hl
    rw [hm]
    by_cases hls : l = sp
    · subst hls
      rw [hP, populate_preserves env _ _ _ _ (dlookup_dinsert_self [] sp ot)]
      rfl
    · rw [hP]
      exact populate_mem env _ _ _ _ hl hls
  refine ⟨hall, ?_, horig, ?_, ?_, ?_⟩
  · rw [hm, hP]
    exact populate_preserves env _ _ _ _ (dlookup_dinsert_self [] sp ot)
  · obtain ⟨t, ht⟩ := Option.isSome_iff_exists.mp
      (hall (targetLanguage view_language viewer_pref) htarget)
    refine ⟨t, ht, ?_⟩
    rw [← h1, ← hm, ht]
    rfl
  · rw [← h3]
    unfold countSpeech
    rw [List.countP_cons]
    have h0 := populate_no_speech env ot sp all_languages (dinsert [] sp ot)
    unfold countSpeech at h0
    rw [← hP] at h0
    rw [h0]
    rfl
  · rw [← h3]
    have hb1 : P.2.length ≤ (all_languages.filter (fun l => l ≠ sp)).length := by
      rw [hP]
      exact populate_log_le env ot sp all_languages (dinsert [] sp ot)
    have hb2 := filter_ne_length hspmem
    have hstep : countTranslation (ExtCall.speech url sp :: P.2) = countTranslation P.2 := by
      unfold countTranslation
      rw [List.countP_cons]
      simp
    rw [hstep]
    calc countTranslation P.2 ≤ P.2.length := by
          unfold countTranslation
          exact List.countP_le_length _
      _ ≤ (all_languages.filter (fun l => l ≠ sp)).length := hb1
      _ = 3 := hb2

/-- C4 witness (scenario B): a first request for Yoruba on a
never-transcribed message with no spoken-language tag defaults the tag to
English, makes one speech call and at most three translation calls, and
caches a Yoruba entry. -/
theorem transcribe_first_call_populates_witness :
    (dlookup ((transcribe_message envOk msgB none none
        (some "Yoruba")).2.1.transcripts.getD []) "yoruba").isSome = true ∧
    countSpeech (transcribe_message envOk msgB none none (some "Yoruba")).2.2 = 1 ∧
    countTranslation (transcribe_message envOk msgB none none (some "Yoruba")).2.2 ≤ 3 ∧
    (transcribe_message envOk msgB none none (some "Yoruba")).2.1.original_language =
      some .english := by
  obtain ⟨hall, hsp, horig, hex, hc1, hc2⟩ :=
    transcribe_first_call_populates envOk msgB none (some "Yoruba")
      rfl rfl (by decide) (by unfold speechFails; decide) _ _ _ rfl
  exact ⟨hall "yoruba" (by decide), hc1, hc2, horig⟩

/-- C6.  During transcript population (no cache hit, speech success; sp /
newOrig / base as determined at lines 657-672), whenever the translation
call for one target language fails — endpoint unset, timeout, HTTP error,
other exception, or empty response — the origin-language text is stored
verbatim under that target's key; no supported key is left absent, the
population is never aborted, and the requested display language is still
returned. -/
theorem transcribe_translation_fallback (env : Env) (message : MessageRec)
    (viewer_pref : Option PreferredLanguage)
    (override_language view_language : Option String)
    {url sp : String} {newOrig : Option PreferredLanguage}
    {base : List (String × String)}
    (hatt : message.attachment_url = some url)
    (hsc : spokenChoice override_language message.original_language
      (message.transcripts.getD []) = (sp, newOrig, base))
    (hnocache : ¬ (override_language = none ∧
      (dlookup (message.transcripts.getD [])
        (targetLanguage view_language viewer_pref)).isSome = true))
    (hok : ¬ speechFails env) :
    ∀ res m1 log,
      transcribe_message env message viewer_pref override_language view_language =
        (res, m1, log) →
      (∀ l ∈ all_languages, (dlookup (m1.transcripts.getD []) l).isSome = true) ∧
      (∀ l ∈ all_languages, l ≠ sp → dlookup base l = none → translationFails env l →
        dlookup (m1.transcripts.getD []) l =
          some ((transcribe_audio env.asr_url env.asr_call).text.getD "")) ∧
      (∃ t, res = .ok t (targetLanguage view_language viewer_pref) (some sp) false
        (decide (targetLanguage view_language viewer_pref ≠ sp))) := by
  have e := transcribe_population_eq env message viewer_pref override_language
    view_language hatt hsc rfl rfl hnocache hok
  set ot := (transcribe_audio env.asr_url env.asr_call).text.getD "" with hot
  set P := populate env ot sp all_languages (dinsert base sp ot) with hP
  intro res m1 log h
  rw [e] at h
  rw [Prod.mk.injEq, Prod.mk.injEq] at h
  obtain ⟨h1, h2, h3⟩ := h
  have hm : m1.transcripts.getD [] = P.1 := by rw [← h2]; rfl
  refine ⟨?_, ?_, ?_⟩
  · intro l hl
    rw [hm]
    by_cases hls : l = sp
    · subst hls
      rw [hP, populate_preserves env _ _ _ _ (dlookup_dinsert_self base l ot)]
      rfl
    · rw [hP]
      exact populate_mem env _ _ _ _ hl hls
  · intro l hl hlsp hbase hf
    rw [hm, hP]
    have hv := populate_value env ot sp all_languages (dinsert base sp ot) hl hlsp
      (by rw [dlookup_dinsert_ne base _ (fun he => hlsp he.symm)]; exact hbase)
    rw [hv, translate_text_fail env l ot sp hf]
    rfl
  · exact ⟨_, h1.symm⟩

/-- C6 witness: with the Hausa translation timing out, the Hausa key holds
the origin text verbatim and the other keys are still populated. -/
theorem transcribe_translation_fallback_witness :
    dlookup ((transcribe_message envC6 msgC6 none none
        (some "english")).2.1.transcripts.getD []) "hausa" = some "hello friend" ∧
    (dlookup ((transcribe_message envC6 msgC6 none none
        (some "english")).2.1.transcripts.getD []) "igbo").isSome = true := by
  obtain ⟨hall, hfb, hex⟩ :=
    transcribe_translation_fallback envC6 msgC6 none none (some "english")
      rfl rfl (by decide) (by unfold speechFails; decide) _ _ _ rfl
  exact ⟨hfb "hausa" (by decide) (by decide) rfl (Or.inr (Or.inl rfl)),
    hall "igbo" (by decide)⟩

/-- C10.  The claimed invariant — transcripts-map keys always a subset of
the four supported languages, with the recorded original_language key
present once transcribed — is breakable: transcribe_message with
overrideSpokenLanguage "French" records original_language = english (the
ValueError fallback) yet keys the speech text under "french", leaving a
five-key map whose key set is not contained in the supported four.  The
enum coercion shows the code intends spoken languages to stay within the
four; keying by the raw string is the slip. -/
theorem transcribe_override_unsupported_breaks_invariant :
    ((transcribe_message envC10 msgC10 none (some "French")
        (some "english")).2.1.transcripts.getD []).map Prod.fst =
      ["french", "english", "yoruba", "hausa", "igbo"] ∧
    dlookup ((transcribe_message envC10 msgC10 none (some "French")
        (some "english")).2.1.transcripts.getD []) "french" =
      some "bonjour tout le monde" ∧
    (transcribe_message envC10 msgC10 none (some "French")
        (some "english")).2.1.original_language = some .english ∧
    ("french" ∈ all_languages) = False := by
  refine ⟨by decide, by decide, rfl, by decide⟩
